import Mathlib

/-!
Verification development for the AI-Powered Todo repository.

The development shallowly embeds:
* the frontend tasks-service client (`normalizeTask`, `getTasks`, `getTask`,
  `updateTask`, `completeTask`) from `frontend/src/services/tasksService.ts`;
* the i18n translation lookup `t` from the frontend i18n module;
* the base64 helpers of `frontend/src/hooks/useNotifications.ts`;
* the natural-language intent interpreter designed in the specification
  (this component is not present in the repository sources, so it is
  modelled from the specification's words).

JavaScript values are modelled with `Option`/`Sum`; JavaScript falsy
checks on strings and numbers become explicit comparisons against `""`
and `0`.
-/

namespace Frontend

/-- Task status enum of the frontend (`TaskStatus`). -/
inductive TaskStatus
  | pending
  | in_progress
  | completed
deriving Repr, DecidableEq

/-- Task priority enum of the frontend (`TaskPriority`). -/
inductive TaskPriority
  | low
  | medium
  | high
  | urgent
deriving Repr, DecidableEq

/-- Raw task data from the API (`RawTask` in tasksService.ts): every field
optional; `id`/`owner_id` may be a string or a number. -/
structure RawTask where
  id : Option (String ⊕ Int) := none
  owner_id : Option (String ⊕ Int) := none
  title : Option String := none
  description : Option String := none
  status : Option TaskStatus := none
  priority : Option TaskPriority := none
  deadline : Option String := none
  estimated_duration : Option Int := none
  ai_estimated_duration : Option Int := none
  ai_priority : Option TaskPriority := none
  created_at : Option String := none
  updated_at : Option String := none
  completed_at : Option String := none
deriving Repr, DecidableEq

/-- Normalized frontend `Task` (the Redux slice shape produced by
`normalizeTask`). -/
structure Task where
  id : String
  owner_id : String
  title : String
  description : Option String
  status : TaskStatus
  priority : TaskPriority
  deadline : Option String
  estimated_duration : Option Int
  ai_estimated_duration : Option Int
  ai_priority : Option TaskPriority
  created_at : String
  updated_at : String
  completed_at : Option String
deriving Repr, DecidableEq

/-- `typeof x === 'string' ? x : String(x || '')` for the `id`/`owner_id`
fields: a string passes through, a number is rendered in decimal except
that the falsy `0` (and a missing field) becomes `""`. -/
def strOfIdField : Option (String ⊕ Int) → String
  | some (.inl s) => s
  | some (.inr n) => if n = 0 then "" else toString n
  | none => ""

/-- `normalizeTask` from tasksService.ts.  `toISO` stands for
`x => new Date(x).toISOString()` and `nowISO` for
`new Date().toISOString()`; both are abstracted as parameters so the
embedding stays pure. -/
def normalizeTask (toISO : String → String) (nowISO : String) (t : RawTask) : Task :=
  { id := strOfIdField t.id
    owner_id := strOfIdField t.owner_id
    title := t.title.getD ""
    description :=
      match t.description with
      | some d => if d = "" then none else some d
      | none => none
    status := t.status.getD .pending
    priority := t.priority.getD .medium
    deadline :=
      match t.deadline with
      | some d => if d = "" then none else some (toISO d)
      | none => none
    estimated_duration :=
      match t.estimated_duration with
      | some n => if n = 0 then none else some n
      | none => none
    ai_estimated_duration :=
      match t.ai_estimated_duration with
      | some n => if n = 0 then none else some n
      | none => none
    ai_priority := t.ai_priority
    created_at :=
      match t.created_at with
      | some d => if d = "" then nowISO else toISO d
      | none => nowISO
    updated_at :=
      match t.updated_at with
      | some d => if d = "" then nowISO else toISO d
      | none => nowISO
    completed_at :=
      match t.completed_at with
      | some d => if d = "" then none else some (toISO d)
      | none => none }

/-- Body shape of a single-task response:
either `{ ..., data: Task }` or a bare task. -/
inductive TaskResp
  | wrapped (t : RawTask)
  | bare (t : RawTask)
deriving Repr, DecidableEq

/-- `'data' in response.data ? response.data.data : response.data`. -/
def pickTask : TaskResp → RawTask
  | .wrapped t => t
  | .bare t => t

/-- `getTask` response handling: pick the task out of the (possibly
wrapped) body and normalize it. -/
def getTask (toISO : String → String) (nowISO : String) (resp : TaskResp) : Task :=
  normalizeTask toISO nowISO (pickTask resp)

/-- The `data` field of a wrapped `getTasks` response: either the
paginated `{items, total, skip, limit}` wrapper or a plain array. -/
inductive TasksRespData
  | paginated (items : List RawTask) (total : Int) (skip : Int) (limit : Int)
  | arr (items : List RawTask)
deriving Repr, DecidableEq

/-- Body shape of a `getTasks` response: `{data: ...}` or a bare array. -/
inductive TasksResp
  | withData (d : TasksRespData)
  | bareArr (items : List RawTask)
deriving Repr, DecidableEq

/-- Return shape of `tasksService.getTasks`. -/
structure TasksResult where
  tasks : List Task
  total : Int
  skip : Int
  limit : Int
deriving Repr, DecidableEq

/-- `tasksService.getTasks` response handling: dispatch on the three
response shapes, normalizing every contained task.  `limit || 20`
re-defaults a falsy (zero) limit. -/
def getTasks (toISO : String → String) (nowISO : String) (skip limit : Int)
    (resp : TasksResp) : TasksResult :=
  let itemsTotal : List Task × Int :=
    match resp with
    | .withData (.paginated its tot _ _) => (its.map (normalizeTask toISO nowISO), tot)
    | .withData (.arr its) => (its.map (normalizeTask toISO nowISO), (its.length : Int))
    | .bareArr its => (its.map (normalizeTask toISO nowISO), (its.length : Int))
  { tasks := itemsTotal.1
    total := itemsTotal.2
    skip := skip
    limit := if limit = 0 then 20 else limit }

/-- HTTP method of a request issued by the tasks service. -/
inductive Method
  | get
  | post
  | put
  | patch
  | delete
deriving Repr, DecidableEq

/-- Payload of `tasksService.updateTask` (`TaskUpdateRequest`). -/
structure TaskUpdateRequest where
  title : Option String := none
  description : Option String := none
  status : Option TaskStatus := none
  priority : Option TaskPriority := none
  deadline : Option String := none
  estimated_duration : Option Int := none
deriving Repr, DecidableEq

/-- A request issued through the axios client. -/
structure ApiRequest where
  method : Method
  path : String
  body : Option TaskUpdateRequest := none
deriving Repr, DecidableEq

/-- Outcome of one axios call: a (possibly wrapped) task body, or a
rejection. -/
inductive ApiOut
  | ok (resp : TaskResp)
  | err (e : String)
deriving Repr, DecidableEq

/-- `tasksService.updateTask`: PUT `tasks/{id}` with the payload; on
success the (possibly wrapped) body is normalized, on failure the error
is rethrown.  The second component records the requests issued. -/
def updateTask (api : ApiRequest → ApiOut) (toISO : String → String) (nowISO : String)
    (taskId : String) (data : TaskUpdateRequest) : Except String Task × List ApiRequest :=
  let req : ApiRequest := { method := .put, path := "tasks/" ++ taskId, body := some data }
  match api req with
  | .ok resp => (.ok (normalizeTask toISO nowISO (pickTask resp)), [req])
  | .err e => (.error e, [req])

/-- `tasksService.completeTask`: PATCH `tasks/{id}/complete`; if that
request rejects, fall back to `updateTask` with `{status: 'completed'}`;
if the fallback also rejects, its error is rethrown. -/
def completeTask (api : ApiRequest → ApiOut) (toISO : String → String) (nowISO : String)
    (taskId : String) : Except String Task × List ApiRequest :=
  let patchReq : ApiRequest :=
    { method := .patch, path := "tasks/" ++ taskId ++ "/complete", body := none }
  match api patchReq with
  | .ok resp => (.ok (normalizeTask toISO nowISO (pickTask resp)), [patchReq])
  | .err _ =>
      let fallback := updateTask api toISO nowISO taskId { status := some .completed }
      (fallback.1, patchReq :: fallback.2)

/-- `tasksService.deleteTask`: DELETE `tasks/{id}`, rethrowing failures. -/
def deleteTask (api : ApiRequest → ApiOut) (taskId : String) :
    Except String Unit × List ApiRequest :=
  let req : ApiRequest := { method := .delete, path := "tasks/" ++ taskId, body := none }
  match api req with
  | .ok _ => (.ok (), [req])
  | .err e => (.error e, [req])

end Frontend

namespace I18n

/-- Supported languages of the i18n module. -/
inductive Language
  | en
  | ur
deriving Repr, DecidableEq

/-- A JSON-like translation tree: leaves are strings, inner nodes are
objects.  The concrete locale files are data, so the development is
parametric in the trees. -/
inductive TransValue
  | str (s : String)
  | obj (fields : List (String × TransValue))
deriving Repr

/-- One lookup step: `value && typeof value === 'object' && k in value`.
A string leaf is not an object, so stepping into it fails. -/
def objLookup (v : TransValue) (k : String) : Option TransValue :=
  match v with
  | .str _ => none
  | .obj fields => fields.lookup k

/-- Resolve a whole dot-path from a root (the shape of the fallback loop
in `t`, which re-resolves the entire path from the English root). -/
def resolvePath (v : TransValue) : List String → Option TransValue
  | [] => some v
  | k :: ks =>
      match objLookup v k with
      | some v2 => resolvePath v2 ks
      | none => none

/-- The main loop of `t`: walk the current language's tree segment by
segment; on the first missing segment, resolve the entire path from the
English root instead (and give up if that also misses). -/
def tWalk (enRoot : TransValue) (allKeys : List String) :
    TransValue → List String → Option TransValue
  | v, [] => some v
  | v, k :: ks =>
      match objLookup v k with
      | some v2 => tWalk enRoot allKeys v2 ks
      | none => resolvePath enRoot allKeys

/-- JS `\w` without the unicode flag: ASCII letters, digits, underscore. -/
def isWordChar (c : Char) : Bool :=
  c.isAlpha || c.isDigit || c = '_'

/-- The left-brace character (written via its code point). -/
def lbrace : Char := Char.ofNat 123

/-- The right-brace character (written via its code point). -/
def rbrace : Char := Char.ofNat 125

/-- Try to read one full placeholder ("double brace, word key, double
brace", with a non-empty ASCII word key) at the start of the character
list; on success return the key characters and the remainder after the
closing braces.  This is exactly the test the regex engine performs at
one scan position. -/
def parsePlaceholder (cs : List Char) : Option (List Char × List Char) :=
  match cs with
  | c1 :: c2 :: rest =>
      if c1 = lbrace ∧ c2 = lbrace then
        let w := rest.takeWhile isWordChar
        match rest.dropWhile isWordChar with
        | r1 :: r2 :: rest2 =>
            if w ≠ [] ∧ r1 = rbrace ∧ r2 = rbrace then some (w, rest2) else none
        | _ => none
      else none
  | _ => none

/-- A successfully parsed placeholder consumes at least the two opening
braces, so the remainder is strictly shorter than the input. -/
def parsePlaceholder_shrink {cs w rest2 : List Char}
    (h : parsePlaceholder cs = some (w, rest2)) : rest2.length < cs.length := by
  cases cs with
  | nil => simp [parsePlaceholder] at h
  | cons c1 cs1 =>
    cases cs1 with
    | nil => simp [parsePlaceholder] at h
    | cons c2 rest =>
      simp only [parsePlaceholder] at h
      split at h
      · split at h
        next r1 r2 rest2' hdrop =>
          split at h
          · have hsub := (List.dropWhile_sublist (l := rest) (p := isWordChar)).length_le
            rw [hdrop] at hsub
            simp only [List.length_cons] at hsub ⊢
            cases h
            omega
          · simp at h
        next hdrop => simp at h
      · simp at h

/-- Global replace of the pattern "double brace, word key, double
brace": at each position, if such a placeholder starts here, emit the
parameter value (or the placeholder itself when the key has no entry)
and continue after it; otherwise emit one character and move on. -/
def interpChars (params : List (String × String)) : List Char → List Char
  | [] => []
  | c :: cs =>
      match hp : parsePlaceholder (c :: cs) with
      | some (w, rest2) =>
          (match params.lookup (String.mk w) with
           | some v => v.data
           | none => lbrace :: lbrace :: (w ++ [rbrace, rbrace])) ++ interpChars params rest2
      | none => c :: interpChars params cs
termination_by l => l.length
decreasing_by
  all_goals
    first
    | exact parsePlaceholder_shrink hp
    | (simp_wf; try omega)

/-- The interpolation step of `t`: with no parameter object the string
is returned unchanged, otherwise every placeholder is replaced. -/
def interpolate (params : Option (List (String × String))) (s : String) : String :=
  match params with
  | none => s
  | some ps => String.mk (interpChars ps s.data)

/-- The translation function `t`: split the key on dots, walk the
current language's tree with whole-path English fallback, return the key
itself when the walk misses or hits a non-string, and interpolate
parameters into the found string. -/
def t (tables : Language → TransValue) (lang : Language) (key : String)
    (params : Option (List (String × String))) : String :=
  let keys := key.splitOn "."
  match tWalk (tables .en) keys (tables lang) keys with
  | some (.str s) => interpolate params s
  | _ => key

/-- Helper wrapping a key in double braces, the literal placeholder
shape. -/
def wrapKey (k : String) : String :=
  String.mk (lbrace :: lbrace :: (k.data ++ [rbrace, rbrace]))

end I18n

namespace Notif

/-- The base64 alphabet used by `btoa`/`atob`. -/
def b64Alphabet : List Char :=
  "ABCDEFGHIJKLMNOPQRSTUVWXYZabcdefghijklmnopqrstuvwxyz0123456789+/".data

/-- Encode one sextet as a base64 character. -/
def encode6 (n : Nat) : Char := b64Alphabet.getD n (Char.ofNat 65)

/-- Decode one base64 character back to its sextet. -/
def decode6 (c : Char) : Nat := b64Alphabet.indexOf c

/-- `window.btoa` on a binary string, given as the list of its byte
values: standard base64 with `=` padding. -/
def btoaBytes : List Nat → List Char
  | [] => []
  | [a] => [encode6 (a / 4), encode6 (a % 4 * 16), '=', '=']
  | [a, b] => [encode6 (a / 4), encode6 (a % 4 * 16 + b / 16), encode6 (b % 16 * 4), '=']
  | a :: b :: c :: rest =>
      encode6 (a / 4) :: encode6 (a % 4 * 16 + b / 16) ::
        encode6 (b % 16 * 4 + c / 64) :: encode6 (c % 64) :: btoaBytes rest

/-- `window.atob` composed with per-character `charCodeAt` (the loop
filling the `Uint8Array`): decode each 4-character group, honouring `=`
padding in the final group. -/
def atobChars : List Char → List Nat
  | c1 :: c2 :: c3 :: c4 :: rest =>
      if c3 = '=' then [decode6 c1 * 4 + decode6 c2 / 16]
      else if c4 = '=' then
        [decode6 c1 * 4 + decode6 c2 / 16, decode6 c2 % 16 * 16 + decode6 c3 / 4]
      else
        (decode6 c1 * 4 + decode6 c2 / 16) ::
          (decode6 c2 % 16 * 16 + decode6 c3 / 4) ::
          (decode6 c3 % 4 * 64 + decode6 c4) :: atobChars rest
  | _ => []

/-- `arrayBufferToBase64`: a null buffer maps to `""`; otherwise the
bytes are turned into a binary string and base64-encoded. -/
def arrayBufferToBase64 : Option (List Nat) → String
  | none => ""
  | some bs => String.mk (btoaBytes bs)

/-- The URL-safe character substitutions undone on one character:
dash becomes plus, underscore becomes slash. -/
def replaceUrlChar (c : Char) : Char :=
  if c = '-' then '+' else if c = '_' then '/' else c

/-- `urlBase64ToUint8Array`: pad to a multiple of 4 with `=`, undo the
URL-safe character substitutions, then `atob` and read the char codes. -/
def urlBase64ToUint8Array (s : String) : List Nat :=
  let padLen := (4 - s.length % 4) % 4
  let padded := s.data ++ List.replicate padLen '='
  atobChars (padded.map replaceUrlChar)

end Notif

namespace Interp

/-- Modelled from the spec: timestamps are opaque instants; deadline
arithmetic is done in seconds against the injected current time. -/
abbrev Timestamp := Nat

/-- Modelled from the spec: the Task data model of section 3 (the
repository's interpreter component itself is absent from the sources). -/
structure Task where
  id : String
  title : String
  description : Option String := none
  status : Frontend.TaskStatus := .pending
  priority : Frontend.TaskPriority := .medium
  deadline : Option Timestamp := none
  estimated_duration : Option Nat := none
  ai_priority : Option Frontend.TaskPriority := none
  ai_estimated_duration : Option Nat := none
  owner : String := ""
  created_at : Timestamp := 0
  updated_at : Timestamp := 0
  completed_at : Option Timestamp := none
deriving Repr, DecidableEq

/-- Modelled from the spec: the action kind of an Intent. -/
inductive ActionKind
  | create
  | update
  | delete
  | query
  | list
  | unknown
deriving Repr, DecidableEq

/-- Modelled from the spec: the partial Task-shaped payload extracted
from an utterance. -/
structure TaskPayload where
  title : Option String := none
  description : Option String := none
  status : Option Frontend.TaskStatus := none
  priority : Option Frontend.TaskPriority := none
  deadline : Option Timestamp := none
deriving Repr, DecidableEq

/-- Modelled from the spec: the error taxonomy of section 7. -/
inductive InterpError
  | emptyInput
  | ambiguousRef
  | notFound
  | validation (reason : String)
  | permission
  | storeUnavailable
deriving Repr, DecidableEq

/-- Modelled from the spec: failures the external task store can
report. -/
inductive StoreError
  | notFound
  | validation (reason : String)
  | permission
  | unavailable
deriving Repr, DecidableEq

/-- Modelled from the spec: the operations of the external task store
(section 6), recorded as first-class calls so runs can be traced. -/
inductive StoreCall
  | create (p : TaskPayload)
  | update (id : String) (p : TaskPayload)
  | delete (id : String)
  | get (id : String)
  | listAll
deriving Repr, DecidableEq

/-- Modelled from the spec: a reply of the external task store. -/
inductive StoreReply
  | task (t : Task)
  | unit
  | tasks (ts : List Task)
  | err (e : StoreError)
deriving Repr, DecidableEq

/-- Modelled from the spec: the outward-facing InterpretationResult. -/
structure InterpretationResult where
  success : Bool
  message : String
  action : String
  task : Option Task := none
deriving Repr, DecidableEq

/-- Modelled from the spec: the per-request pipeline states of
section 4.5. -/
inductive Stage
  | received
  | classified
  | extracted
  | resolved
  | dispatched
  | composed
  | done
deriving Repr, DecidableEq

deriving instance DecidableEq for Except

/-- Everything one interpretation run produces: the outcome (hard error
or result), the store calls issued, and the pipeline stages visited. -/
structure Outcome where
  res : Except InterpError InterpretationResult
  calls : List StoreCall
  stages : List Stage
deriving Repr, DecidableEq

/-- Modelled from the spec: the utterance must be non-empty after
trimming; an utterance is blank when every character is whitespace
(so trimming leaves the empty string). -/
def isBlank (u : String) : Bool :=
  u.data.all (fun c => c.isWhitespace)

/-- The apostrophe character (written via its code point). -/
def quoteChar : Char := Char.ofNat 39

/-- A one-character string holding the apostrophe. -/
def quoteStr : String := String.mk [quoteChar]

/-- Lower-case a character list. -/
def lowerChars (cs : List Char) : List Char :=
  cs.map Char.toLower

/-- Lower-case a string. -/
def lowerStr (s : String) : String :=
  String.mk (lowerChars s.data)

/-- Split a character list on a separator character (the shape of
splitting a string on a one-character separator). -/
def splitOnChar (sep : Char) : List Char → List (List Char)
  | [] => [[]]
  | c :: rest =>
      let r := splitOnChar sep rest
      if c = sep then [] :: r
      else
        match r with
        | w :: ws => (c :: w) :: ws
        | [] => [[c]]

/-- Drop non-alphanumeric characters from the front of a word. -/
def dropNonAlnum (cs : List Char) : List Char :=
  cs.dropWhile (fun c => !c.isAlphanum)

/-- Strip punctuation from both ends of a word. -/
def cleanWord (w : List Char) : String :=
  String.mk ((dropNonAlnum (dropNonAlnum w).reverse).reverse)

/-- Lower-cased, punctuation-trimmed words of an utterance. -/
def wordsOf (u : String) : List String :=
  ((splitOnChar ' ' (lowerChars u.data)).map cleanWord).filter (fun w => w ≠ "")

/-- Substring test on strings (plain list scan). -/
def charsHasPre : List Char → List Char → Bool
  | [], _ => true
  | _ :: _, [] => false
  | a :: as, b :: bs => a == b && charsHasPre as bs

/-- Whether `needle` occurs inside `hay`. -/
def strContainsSub (hay needle : String) : Bool :=
  let rec go : List Char → Bool
    | [] => needle.data.isEmpty
    | c :: cs => charsHasPre needle.data (c :: cs) || go cs
  go hay.data

/-- Modelled from the spec: keywords indicating a create action. -/
def createKws : List String := ["create", "add"]

/-- Modelled from the spec: keywords indicating a delete action. -/
def deleteKws : List String := ["delete", "remove"]

/-- Modelled from the spec: keywords indicating an update-to-completed
action. -/
def updateKws : List String := ["mark", "complete", "finish", "completed", "finished"]

/-- Modelled from the spec: keywords indicating a list action. -/
def listKws : List String := ["list"]

/-- Modelled from the spec: keywords indicating a query action. -/
def queryKws : List String := ["show", "find"]

/-- All action-indicating keywords of the classifier. -/
def allActionKws : List String :=
  createKws ++ deleteKws ++ updateKws ++ listKws ++ queryKws

/-- Whether any keyword of `kws` occurs as a word of `ws`. -/
def hasAnyKw (ws : List String) (kws : List String) : Bool :=
  kws.any (fun k => ws.contains k)

/-- Modelled from the spec: the intent classifier of section 4.1 —
keyword matching over the utterance's words, with confidence 1 on a
match and falling back to `unknown` with confidence 0. -/
def classify (u : String) : ActionKind × Nat :=
  let ws := wordsOf u
  if hasAnyKw ws createKws then (.create, 1)
  else if hasAnyKw ws deleteKws then (.delete, 1)
  else if hasAnyKw ws updateKws then (.update, 1)
  else if hasAnyKw ws listKws then (.list, 1)
  else if hasAnyKw ws queryKws then (.query, 1)
  else (.unknown, 0)

/-- Text enclosed in the first pair of quotes, when present. -/
def quotedText (u : String) : Option String :=
  match splitOnChar quoteChar u.data with
  | _ :: t :: _ :: _ => some (String.mk t)
  | _ => none

/-- Command keywords and fillers removed before taking the remainder of
an utterance as a title or task reference. -/
def fillerKws : List String :=
  allActionKws ++
    ["task", "todo", "a", "an", "the", "as", "to", "called", "named", "with", "priority"]

/-- Join words back together with single spaces. -/
def joinWith (sep : String) : List String → String
  | [] => ""
  | [w] => w
  | w :: ws => w ++ sep ++ joinWith sep ws

/-- The noun-phrase-like remainder: the utterance's words with command
keywords and fillers removed. -/
def remainderText (u : String) : String :=
  joinWith " " ((wordsOf u).filter (fun w => !(fillerKws.contains w)))

/-- Modelled from the spec: priority keywords of section 4.2. -/
def priorityKws : List String := ["low", "medium", "high", "urgent"]

/-- Modelled from the spec: explicit priority keyword match; absent
means the priority is left unset at this layer. -/
def extractPriority (u : String) : Option Frontend.TaskPriority :=
  let ws := wordsOf u
  if ws.contains "urgent" then some .urgent
  else if ws.contains "high" then some .high
  else if ws.contains "medium" then some .medium
  else if ws.contains "low" then some .low
  else none

/-- Names of the weekdays, indexed from Sunday. -/
def weekdayNames : List String :=
  ["sunday", "monday", "tuesday", "wednesday", "thursday", "friday", "saturday"]

/-- Modelled from the spec: deadline extraction from relative terms,
resolved against the injected current time (seconds; day 0 of the epoch
is a Thursday). -/
def extractDeadline (u : String) (now : Timestamp) : Option Timestamp :=
  let ws := wordsOf u
  if ws.contains "tomorrow" then some (now + 86400)
  else if strContainsSub (lowerStr u) "next week" then some (now + 7 * 86400)
  else
    match weekdayNames.findIdx? (fun d => ws.contains d) with
    | some w =>
        let cur := (now / 86400 + 4) % 7
        let d := (w + 7 - cur) % 7
        some (now + 86400 * (if d = 0 then 7 else d))
    | none => none

/-- Modelled from the spec: the entity extractor of section 4.2 —
best-effort, never fails, leaves unmatched fields unset.  The mark,
complete and finish keywords target the completed status. -/
def extractPayload (u : String) (kind : ActionKind) (now : Timestamp) : TaskPayload :=
  { title :=
      match quotedText u with
      | some q => some q
      | none => if remainderText u = "" then none else some (remainderText u)
    description := none
    status := if kind = .update then some .completed else none
    priority := extractPriority u
    deadline := extractDeadline u now }

/-- The free-text reference used to resolve a target task. -/
def refText (u : String) : String :=
  (quotedText u).getD (remainderText u)

/-- Modelled from the spec: the reference resolver of section 4.3 —
exact identifier match, then exact case-insensitive title match, then
substring title match; candidates of the most specific non-empty tier. -/
def resolveRef (r : String) (tasks : List Task) : List Task :=
  let tier1 := tasks.filter (fun t => t.id == r)
  if !tier1.isEmpty then tier1
  else
    let tier2 := tasks.filter (fun t => lowerStr t.title == lowerStr r)
    if !tier2.isEmpty then tier2
    else tasks.filter (fun t => strContainsSub (lowerStr t.title) (lowerStr r))

/-- Modelled from the spec: the user-facing message for each store
failure (section 7). -/
def storeErrorMessage : StoreError → String
  | .notFound => "could not find that task"
  | .validation reason => "could not create or update the task: " ++ reason
  | .permission => "you do not have permission to do that"
  | .unavailable => "the task service is unavailable right now, please try again"

/-- Modelled from the spec: the action dispatcher and response composer
(sections 4.4 and 4.5) — a store failure becomes a non-success result
carrying a user-facing message and is never re-raised. -/
def dispatchOutcome (reply : StoreReply) (okAction : String) (okMsg : String) :
    InterpretationResult :=
  match reply with
  | .err e => { success := false, message := storeErrorMessage e, action := okAction }
  | .task t => { success := true, message := okMsg, action := okAction, task := some t }
  | .unit => { success := true, message := okMsg, action := okAction }
  | .tasks _ => { success := true, message := okMsg, action := okAction }

/-- The full pipeline stage trace of a dispatched run. -/
def fullStages : List Stage :=
  [.received, .classified, .extracted, .resolved, .dispatched, .composed, .done]

/-- Stage trace of a run that exits early after resolution. -/
def resolvedExitStages : List Stage :=
  [.received, .classified, .extracted, .resolved, .done]

/-- Clarification result for an unrecognized action. -/
def clarifyUnknownResult : InterpretationResult :=
  { success := false
    message := "sorry, I did not understand that - try create, update, delete or list"
    action := "clarify" }

/-- Clarification result for a create request without a title. -/
def needTitleResult : InterpretationResult :=
  { success := false
    message := "what should the task be called?"
    action := "clarify" }

/-- Clarification result when no task matches the reference. -/
def notFoundResult : InterpretationResult :=
  { success := false
    message := "could not find that task"
    action := "not_found" }

/-- Clarification result when several tasks match the reference. -/
def ambiguousResult (candidates : List Task) : InterpretationResult :=
  { success := false
    message := "which one do you mean: " ++
      joinWith ", " (candidates.map (fun t => t.title)) ++ "?"
    action := "ambiguous" }

/-- Modelled from the spec: the interpreter entry point
`interpret(utterance, ownerTasks, now)` of section 6, with the store
injected as an oracle.  It returns the outcome together with the store
calls issued and the pipeline stages visited. -/
def interpret (u : String) (tasks : List Task) (now : Timestamp)
    (store : StoreCall → StoreReply) : Outcome :=
  if isBlank u then
    { res := .error .emptyInput, calls := [], stages := [.received, .done] }
  else
    match (classify u).1 with
    | .unknown =>
        { res := .ok clarifyUnknownResult, calls := [], stages := [.received, .classified, .done] }
    | .create =>
        let payload := extractPayload u .create now
        match payload.title with
        | none =>
            { res := .ok needTitleResult, calls := []
              stages := [.received, .classified, .extracted, .done] }
        | some ttl =>
            let call := StoreCall.create payload
            { res := .ok (dispatchOutcome (store call) "create" ("created task " ++ ttl))
              calls := [call], stages := fullStages }
    | .update =>
        let payload := extractPayload u .update now
        match resolveRef (refText u) tasks with
        | [] => { res := .ok notFoundResult, calls := [], stages := resolvedExitStages }
        | [t] =>
            let call := StoreCall.update t.id payload
            { res := .ok (dispatchOutcome (store call) "update" ("updated task " ++ t.title))
              calls := [call], stages := fullStages }
        | ts => { res := .ok (ambiguousResult ts), calls := [], stages := resolvedExitStages }
    | .delete =>
        match resolveRef (refText u) tasks with
        | [] => { res := .ok notFoundResult, calls := [], stages := resolvedExitStages }
        | [t] =>
            let call := StoreCall.delete t.id
            { res := .ok (dispatchOutcome (store call) "delete" ("deleted task " ++ t.title))
              calls := [call], stages := fullStages }
        | ts => { res := .ok (ambiguousResult ts), calls := [], stages := resolvedExitStages }
    | .query =>
        match resolveRef (refText u) tasks with
        | [] => { res := .ok notFoundResult, calls := [], stages := resolvedExitStages }
        | [t] =>
            let call := StoreCall.get t.id
            { res := .ok (dispatchOutcome (store call) "query" ("here is task " ++ t.title))
              calls := [call], stages := fullStages }
        | ts => { res := .ok (ambiguousResult ts), calls := [], stages := resolvedExitStages }
    | .list =>
        let call := StoreCall.listAll
        { res := .ok (dispatchOutcome (store call) "list" "here are your tasks")
          calls := [call], stages := fullStages }

/-- The round-trip utterance of the spec's testable properties:
`Create a task called (quote)Buy milk(quote)`. -/
def createMilkUtterance : String :=
  "Create a task called " ++ quoteStr ++ "Buy milk" ++ quoteStr

end Interp

section FrontendTheorems

open Frontend

/-- C1: for every task identifier, `completeTask` first issues a PATCH
request to `tasks/{id}/complete`; exactly when that request fails it
falls back to calling `updateTask` with payload `{status: 'completed'}`;
in both the PATCH case and the fallback case the returned value is the
normalized task from the successful response, and if the fallback also
fails, the fallback's error is thrown to the caller. -/
theorem completeTask_patch_then_put_fallback
    (api : ApiRequest → ApiOut) (toISO : String → String) (nowISO : String)
    (taskId : String) :
    let patchReq : ApiRequest :=
      { method := .patch, path := "tasks/" ++ taskId ++ "/complete", body := none }
    let putReq : ApiRequest :=
      { method := .put, path := "tasks/" ++ taskId
        body := some { status := some TaskStatus.completed } }
    (completeTask api toISO nowISO taskId).2.head? = some patchReq ∧
    (match api patchReq with
     | .ok resp =>
         completeTask api toISO nowISO taskId =
           (.ok (normalizeTask toISO nowISO (pickTask resp)), [patchReq])
     | .err _ =>
         (completeTask api toISO nowISO taskId).2 = [patchReq, putReq] ∧
         (completeTask api toISO nowISO taskId).1 =
           (updateTask api toISO nowISO taskId { status := some .completed }).1 ∧
         (match api putReq with
          | .ok resp =>
              (completeTask api toISO nowISO taskId).1 =
                .ok (normalizeTask toISO nowISO (pickTask resp))
          | .err e => (completeTask api toISO nowISO taskId).1 = .error e)) := by
  intro patchReq putReq
  cases hpatch : api patchReq with
  | ok resp =>
      refine ⟨?_, ?_⟩
      · simp [completeTask, hpatch, patchReq]
      · simp only [hpatch]
        simp [completeTask, hpatch, patchReq]
  | err e =>
      refine ⟨?_, ?_⟩
      · simp [completeTask, hpatch, patchReq]
      · simp only [hpatch]
        cases hput : api putReq with
        | ok resp =>
            refine ⟨?_, ?_, ?_⟩ <;>
              simp [completeTask, updateTask, hpatch, hput, patchReq, putReq]
        | err e2 =>
            refine ⟨?_, ?_, ?_⟩ <;>
              simp [completeTask, updateTask, hpatch, hput, patchReq, putReq]

/-- C2: `getTasks` handles exactly the three response shapes — the
paginated wrapper (tasks are the normalized items, total is the
wrapper's total), a wrapped array and a bare array (tasks are the
normalized elements, total is the array's length) — and `getTask`
normalizes `response.data.data` when the body is wrapped and
`response.data` otherwise. -/
theorem getTasks_getTask_shape_handling
    (toISO : String → String) (nowISO : String) (skip limit : Int)
    (resp : TasksResp) (tresp : TaskResp) :
    (match resp with
     | .withData (.paginated its tot _s _l) =>
         (getTasks toISO nowISO skip limit resp).tasks =
             its.map (normalizeTask toISO nowISO) ∧
           (getTasks toISO nowISO skip limit resp).total = tot
     | .withData (.arr its) =>
         (getTasks toISO nowISO skip limit resp).tasks =
             its.map (normalizeTask toISO nowISO) ∧
           (getTasks toISO nowISO skip limit resp).total = its.length
     | .bareArr its =>
         (getTasks toISO nowISO skip limit resp).tasks =
             its.map (normalizeTask toISO nowISO) ∧
           (getTasks toISO nowISO skip limit resp).total = its.length) ∧
    (match tresp with
     | .wrapped rt => getTask toISO nowISO tresp = normalizeTask toISO nowISO rt
     | .bare rt => getTask toISO nowISO tresp = normalizeTask toISO nowISO rt) := by
  constructor
  · match resp with
    | .withData (.paginated its tot _s _l) => exact ⟨rfl, rfl⟩
    | .withData (.arr its) => exact ⟨rfl, rfl⟩
    | .bareArr its => exact ⟨rfl, rfl⟩
  · match tresp with
    | .wrapped rt => rfl
    | .bare rt => rfl

/-- C8: `normalizeTask` is total, and defaults every missing field:
status to pending, priority to medium, `id`/`owner_id` to `""` when
missing or falsy, title to `""` when missing, and the two timestamps to
the current time when absent. -/
theorem normalizeTask_defaults
    (toISO : String → String) (nowISO : String) (raw : RawTask) :
    (raw.status = none → (normalizeTask toISO nowISO raw).status = .pending) ∧
    (raw.priority = none → (normalizeTask toISO nowISO raw).priority = .medium) ∧
    ((raw.id = none ∨ raw.id = some (.inl "") ∨ raw.id = some (.inr 0)) →
       (normalizeTask toISO nowISO raw).id = "") ∧
    ((raw.owner_id = none ∨ raw.owner_id = some (.inl "") ∨ raw.owner_id = some (.inr 0)) →
       (normalizeTask toISO nowISO raw).owner_id = "") ∧
    (raw.title = none → (normalizeTask toISO nowISO raw).title = "") ∧
    (raw.created_at = none → (normalizeTask toISO nowISO raw).created_at = nowISO) ∧
    (raw.updated_at = none → (normalizeTask toISO nowISO raw).updated_at = nowISO) := by
  refine ⟨?_, ?_, ?_, ?_, ?_, ?_, ?_⟩
  · intro h; simp [normalizeTask, h]
  · intro h; simp [normalizeTask, h]
  · rintro (h | h | h) <;> simp [normalizeTask, strOfIdField, h]
  · rintro (h | h | h) <;> simp [normalizeTask, strOfIdField, h]
  · intro h; simp [normalizeTask, h]
  · intro h; simp [normalizeTask, h]
  · intro h; simp [normalizeTask, h]

/-- Witness for C8 at the all-missing raw task. -/
theorem normalizeTask_defaults_witness :
    (normalizeTask id "NOW" {}).status = .pending ∧
    (normalizeTask id "NOW" {}).priority = .medium ∧
    (normalizeTask id "NOW" {}).id = "" ∧
    (normalizeTask id "NOW" {}).owner_id = "" ∧
    (normalizeTask id "NOW" {}).title = "" ∧
    (normalizeTask id "NOW" {}).created_at = "NOW" ∧
    (normalizeTask id "NOW" {}).updated_at = "NOW" := by
  have h := normalizeTask_defaults id "NOW" {}
  exact ⟨h.1 rfl, h.2.1 rfl, h.2.2.1 (Or.inl rfl), h.2.2.2.1 (Or.inl rfl),
    h.2.2.2.2.1 rfl, h.2.2.2.2.2.1 rfl, h.2.2.2.2.2.2 rfl⟩

end FrontendTheorems

section InterpTheorems

open Interp

/-- C4: for every task list and every timestamp, a blank utterance is
rejected with EmptyInputError before classification and before any
store interaction. -/
theorem interpret_blank_fails_before_store (u : String) (tasks : List Task)
    (now : Timestamp) (store : StoreCall → StoreReply) (h : isBlank u = true) :
    interpret u tasks now store =
      { res := .error .emptyInput, calls := [], stages := [.received, .done] } := by
  simp [interpret, h]

/-- Witness for C4 at a whitespace-only utterance. -/
theorem interpret_blank_fails_before_store_witness :
    isBlank "  " = true ∧
    interpret "  " [] 0 (fun _ => .unit) =
      { res := .error .emptyInput, calls := [], stages := [.received, .done] } :=
  ⟨by decide, interpret_blank_fails_before_store "  " [] 0 _ (by decide)⟩

/-- Auxiliary form of the error-containment property, with the error
and call scrutinised through hypotheses. -/
theorem interpret_failures_aux (u : String) (tasks : List Task)
    (now : Timestamp) (store : StoreCall → StoreReply) :
    (∀ e, (interpret u tasks now store).res = .error e →
        e = .emptyInput ∧ isBlank u = true) ∧
    (∀ c se, (interpret u tasks now store).calls = [c] → store c = .err se →
        ∃ act, (interpret u tasks now store).res =
          .ok { success := false, message := storeErrorMessage se,
                action := act, task := none }) := by
  by_cases hb : isBlank u = true
  · constructor
    · intro e he
      simp only [interpret, if_pos hb] at he
      exact ⟨(Except.error.inj he).symm, hb⟩
    · intro c se hc hse
      simp only [interpret, if_pos hb] at hc
      exact absurd hc (by simp)
  · rw [Bool.not_eq_true] at hb
    constructor
    · intro e he
      cases hcl : (classify u).1 with
      | unknown => simp [interpret, hb, hcl] at he
      | create =>
          cases ht : (extractPayload u .create now).title with
          | none => simp [interpret, hb, hcl, ht] at he
          | some ttl => simp [interpret, hb, hcl, ht] at he
      | update =>
          cases hres : resolveRef (refText u) tasks with
          | nil => simp [interpret, hb, hcl, hres] at he
          | cons t rest => cases rest <;> simp [interpret, hb, hcl, hres] at he
      | delete =>
          cases hres : resolveRef (refText u) tasks with
          | nil => simp [interpret, hb, hcl, hres] at he
          | cons t rest => cases rest <;> simp [interpret, hb, hcl, hres] at he
      | query =>
          cases hres : resolveRef (refText u) tasks with
          | nil => simp [interpret, hb, hcl, hres] at he
          | cons t rest => cases rest <;> simp [interpret, hb, hcl, hres] at he
      | list => simp [interpret, hb, hcl] at he
    · intro c se hc hse
      cases hcl : (classify u).1 with
      | unknown => simp [interpret, hb, hcl] at hc
      | create =>
          cases ht : (extractPayload u .create now).title with
          | none => simp [interpret, hb, hcl, ht] at hc
          | some ttl =>
              simp only [interpret, hb, hcl, ht] at hc ⊢
              simp only [Bool.false_eq_true, if_false, List.cons.injEq, and_true] at hc
              rw [← hc] at hse
              simp [hse, dispatchOutcome]
      | update =>
          cases hres : resolveRef (refText u) tasks with
          | nil => simp [interpret, hb, hcl, hres] at hc
          | cons t rest =>
              cases rest with
              | nil =>
                  simp only [interpret, hb, hcl, hres] at hc ⊢
                  simp only [Bool.false_eq_true, if_false, List.cons.injEq, and_true] at hc
                  rw [← hc] at hse
                  simp [hse, dispatchOutcome]
              | cons t2 rest2 => simp [interpret, hb, hcl, hres] at hc
      | delete =>
          cases hres : resolveRef (refText u) tasks with
          | nil => simp [interpret, hb, hcl, hres] at hc
          | cons t rest =>
              cases rest with
              | nil =>
                  simp only [interpret, hb, hcl, hres] at hc ⊢
                  simp only [Bool.false_eq_true, if_false, List.cons.injEq, and_true] at hc
                  rw [← hc] at hse
                  simp [hse, dispatchOutcome]
              | cons t2 rest2 => simp [interpret, hb, hcl, hres] at hc
      | query =>
          cases hres : resolveRef (refText u) tasks with
          | nil => simp [interpret, hb, hcl, hres] at hc
          | cons t rest =>
              cases rest with
              | nil =>
                  simp only [interpret, hb, hcl, hres] at hc ⊢
                  simp only [Bool.false_eq_true, if_false, List.cons.injEq, and_true] at hc
                  rw [← hc] at hse
                  simp [hse, dispatchOutcome]
              | cons t2 rest2 => simp [interpret, hb, hcl, hres] at hc
      | list =>
          simp only [interpret, hb, hcl] at hc ⊢
          simp only [Bool.false_eq_true, if_false, List.cons.injEq, and_true] at hc
          rw [← hc] at hse
          simp [hse, dispatchOutcome]

/-- C3: the interpreter never raises any error other than
EmptyInputError (and that only on blank input); a store failure during
dispatch is caught and mapped to a non-success InterpretationResult
carrying the user-facing message for that failure, and is never raised
past the dispatcher boundary. -/
theorem interpret_store_failures_contained (u : String) (tasks : List Task)
    (now : Timestamp) (store : StoreCall → StoreReply) :
    (match (interpret u tasks now store).res with
     | .error e => e = .emptyInput ∧ isBlank u = true
     | .ok _ => True) ∧
    (match (interpret u tasks now store).calls with
     | [c] =>
         (match store c with
          | .err se =>
              ∃ act, (interpret u tasks now store).res =
                .ok { success := false, message := storeErrorMessage se,
                      action := act, task := none }
          | _ => True)
     | _ => True) := by
  have aux := interpret_failures_aux u tasks now store
  constructor
  · cases hr : (interpret u tasks now store).res with
    | error e => exact aux.1 e hr
    | ok r => trivial
  · cases hcalls : (interpret u tasks now store).calls with
    | nil => trivial
    | cons c rest =>
        cases rest with
        | nil =>
            simp only
            cases hsr : store c with
            | err se => exact aux.2 c se hcalls hsr
            | task t => trivial
            | unit => trivial
            | tasks ts => trivial
        | cons c2 rest2 => trivial

/-- C5: an utterance that is classified as update or delete leads to a
store mutation exactly when reference resolution yields one task;
with zero or several candidates the result is a clarification and no
update or delete call is issued. -/
theorem mutation_requires_unique_resolution (u : String) (tasks : List Task)
    (now : Timestamp) (store : StoreCall → StoreReply) (hb : isBlank u = false)
    (hk : (classify u).1 = .update ∨ (classify u).1 = .delete) :
    (match resolveRef (refText u) tasks with
     | [t] =>
         (interpret u tasks now store).calls =
           [if (classify u).1 = .update
            then StoreCall.update t.id (extractPayload u .update now)
            else StoreCall.delete t.id]
     | [] =>
         (interpret u tasks now store).res = .ok notFoundResult ∧
           (interpret u tasks now store).calls = []
     | ts =>
         (interpret u tasks now store).res = .ok (ambiguousResult ts) ∧
           (interpret u tasks now store).calls = []) := by
  rcases hk with hk | hk <;>
  · cases hres : resolveRef (refText u) tasks with
    | nil => simp [interpret, hb, hk, hres]
    | cons t rest =>
        cases rest with
        | nil => simp [interpret, hb, hk, hres]
        | cons t2 rest2 => simp [interpret, hb, hk, hres]

/-- Witness for C5: a delete utterance resolving to exactly one task
issues exactly the delete call for it. -/
theorem mutation_requires_unique_resolution_witness :
    (classify ("delete " ++ quoteStr ++ "Report A" ++ quoteStr)).1 = .delete ∧
    (interpret ("delete " ++ quoteStr ++ "Report A" ++ quoteStr)
        [{ id := "1", title := "Report A" }] 0 (fun _ => .unit)).calls =
      [StoreCall.delete "1"] := by
  have h := mutation_requires_unique_resolution
      ("delete " ++ quoteStr ++ "Report A" ++ quoteStr)
      [{ id := "1", title := "Report A" }] 0 (fun _ => .unit)
      (by decide) (Or.inr (by decide))
  refine ⟨by decide, ?_⟩
  rw [show resolveRef (refText ("delete " ++ quoteStr ++ "Report A" ++ quoteStr))
        [{ id := "1", title := "Report A" }] =
      [{ id := "1", title := "Report A" }] from by decide] at h
  simp only at h
  rw [if_neg (by decide :
      ¬(classify ("delete " ++ quoteStr ++ "Report A" ++ quoteStr)).1 = ActionKind.update)] at h
  exact h

/-- C6 (amended with non-blankness): a non-blank utterance with no
recognized action keyword is classified `unknown` and the pipeline
exits early to Done from Classified with a clarification response,
never reaching the store. -/
theorem unknown_keyword_early_exit (u : String) (tasks : List Task)
    (now : Timestamp) (store : StoreCall → StoreReply) (hb : isBlank u = false)
    (hkw : hasAnyKw (wordsOf u) allActionKws = false) :
    (classify u).1 = .unknown ∧
    interpret u tasks now store =
      { res := .ok clarifyUnknownResult, calls := []
        stages := [.received, .classified, .done] } := by
  have hcl : (classify u).1 = .unknown := by
    simp only [allActionKws, hasAnyKw, List.any_append, Bool.or_eq_false_iff] at hkw
    obtain ⟨⟨⟨⟨h1, h2⟩, h3⟩, h4⟩, h5⟩ := hkw
    simp only [classify, hasAnyKw, h1, h2, h3, h4, h5]
    simp
  refine ⟨hcl, ?_⟩
  simp [interpret, hb, hcl]

/-- Witness for C6's amended statement at a keyword-free utterance. -/
theorem unknown_keyword_early_exit_witness :
    (classify "hello there").1 = .unknown ∧
    interpret "hello there" [] 0 (fun _ => .unit) =
      { res := .ok clarifyUnknownResult, calls := []
        stages := [.received, .classified, .done] } :=
  unknown_keyword_early_exit "hello there" [] 0 _ (by decide) (by decide)

/-- Counterexample for C6 as stated: the blank utterance contains no
recognized action keyword, yet the pipeline does not exit from the
Classified state with a clarification — it rejects the input from
Received with a hard EmptyInputError. -/
theorem unknown_keyword_early_exit_counterexample :
    hasAnyKw (wordsOf "") allActionKws = false ∧
    (interpret "" [] 0 (fun _ => .unit)).res = .error .emptyInput ∧
    (interpret "" [] 0 (fun _ => .unit)).stages = [.received, .done] := by
  decide

/-- C7: without an explicit priority keyword the extracted payload
leaves the priority unset; in particular the round-trip utterance
creating task Buy milk dispatches a create whose payload title is
exactly that and whose priority is unset. -/
theorem no_priority_keyword_leaves_priority_unset :
    (∀ u kind now, hasAnyKw (wordsOf u) priorityKws = false →
        (extractPayload u kind now).priority = none) ∧
    (∀ now store,
        (interpret createMilkUtterance [] now store).calls =
          [StoreCall.create
            { title := some "Buy milk", description := none, status := none,
              priority := none, deadline := none }]) := by
  constructor
  · intro u kind now h
    simp only [priorityKws, hasAnyKw, List.any_cons, List.any_nil,
      Bool.or_eq_false_iff] at h
    obtain ⟨hlow, hmed, hhigh, hurg, -⟩ := h
    simp only [extractPayload, extractPriority, hurg, hhigh, hmed, hlow]
    simp
  · intro now store
    rfl

/-- Witness for C7 at a keyword-free utterance and at the round-trip
utterance itself. -/
theorem no_priority_keyword_leaves_priority_unset_witness :
    hasAnyKw (wordsOf "hello") priorityKws = false ∧
    (extractPayload "hello" .create 0).priority = none ∧
    (interpret createMilkUtterance [] 0 (fun _ => .unit)).calls =
      [StoreCall.create
        { title := some "Buy milk", description := none, status := none,
          priority := none, deadline := none }] :=
  ⟨by decide,
    no_priority_keyword_leaves_priority_unset.1 "hello" .create 0 (by decide),
    no_priority_keyword_leaves_priority_unset.2 0 (fun _ => .unit)⟩

end InterpTheorems

section I18nTheorems

open I18n

/-- The walk of `t` agrees with: resolve the path in the current tree,
and on a miss resolve the whole path from the English root. -/
theorem tWalk_resolvePath (enRoot : TransValue) (allKeys : List String) :
    ∀ (ks : List String) (v : TransValue),
      tWalk enRoot allKeys v ks =
        match resolvePath v ks with
        | some r => some r
        | none => resolvePath enRoot allKeys
  | [], v => by simp [tWalk, resolvePath]
  | k :: ks, v => by
      simp only [tWalk, resolvePath]
      cases h : objLookup v k with
      | some v2 => simp [h, tWalk_resolvePath enRoot allKeys ks v2]
      | none => simp [h]

/-- `takeWhile` passes over a prefix whose elements all satisfy the
predicate. -/
theorem takeWhile_all_append (p : Char → Bool) :
    ∀ (l1 l2 : List Char), (∀ c ∈ l1, p c = true) →
      (l1 ++ l2).takeWhile p = l1 ++ l2.takeWhile p
  | [], l2, _ => rfl
  | c :: l1, l2, h => by
      have hc : p c = true := h c (by simp)
      simp [hc, takeWhile_all_append p l1 l2 (fun x hx => h x (by simp [hx]))]

/-- `dropWhile` drops a prefix whose elements all satisfy the
predicate. -/
theorem dropWhile_all_append (p : Char → Bool) :
    ∀ (l1 l2 : List Char), (∀ c ∈ l1, p c = true) →
      (l1 ++ l2).dropWhile p = l2.dropWhile p
  | [], l2, _ => rfl
  | c :: l1, l2, h => by
      have hc : p c = true := h c (by simp)
      simp [hc, dropWhile_all_append p l1 l2 (fun x hx => h x (by simp [hx]))]

/-- A full placeholder parses to its word key and empty remainder. -/
theorem parsePlaceholder_wrap (k : List Char) (hk : k ≠ [])
    (hw : ∀ c ∈ k, isWordChar c = true) :
    parsePlaceholder (lbrace :: lbrace :: (k ++ [rbrace, rbrace])) = some (k, []) := by
  simp only [parsePlaceholder]
  rw [if_pos (by simp)]
  rw [takeWhile_all_append isWordChar k [rbrace, rbrace] hw,
    dropWhile_all_append isWordChar k [rbrace, rbrace] hw]
  have hrb : isWordChar rbrace = false := by decide
  simp [hrb, hk]

/-- `interpChars` on one whole placeholder: substitute the parameter
when present, keep the literal placeholder otherwise. -/
theorem interpChars_wrap (ps : List (String × String)) (k : List Char)
    (hk : k ≠ []) (hw : ∀ c ∈ k, isWordChar c = true) :
    interpChars ps (lbrace :: lbrace :: (k ++ [rbrace, rbrace])) =
      match ps.lookup (String.mk k) with
      | some v => v.data
      | none => lbrace :: lbrace :: (k ++ [rbrace, rbrace]) := by
  rw [interpChars, parsePlaceholder_wrap k hk hw]
  cases hl : ps.lookup (String.mk k) <;> simp [hl, interpChars]

/-- C9: `t` is total and returns a string: it resolves the dot-path in
the current language's tree, re-resolving the entire path from the
English root when a segment is missing, and returns the key itself when
the path misses in English too or hits a non-string; interpolation
replaces a placeholder that has a parameter entry and keeps it
literally otherwise. -/
theorem t_resolution_and_interpolation :
    (∀ (tables : Language → TransValue) (lang : Language) (key : String)
        (params : Option (List (String × String))),
        t tables lang key params =
          match
            (match resolvePath (tables lang) (key.splitOn ".") with
             | some r => some r
             | none => resolvePath (tables .en) (key.splitOn ".")) with
          | some (.str s) => interpolate params s
          | _ => key) ∧
    (∀ (ps : List (String × String)) (k : String), k ≠ "" →
        (∀ c ∈ k.data, isWordChar c = true) →
        interpolate (some ps) (wrapKey k) =
          match ps.lookup k with
          | some v => v
          | none => wrapKey k) := by
  constructor
  · intro tables lang key params
    simp only [t, tWalk_resolvePath]
  · intro ps k hk hw
    have hsk : String.mk k.data = k := by
      cases k
      rfl
    have hkd : k.data ≠ [] := by
      intro hd
      apply hk
      rw [← hsk, hd]
    have hmain := interpChars_wrap ps k.data hkd hw
    rw [hsk] at hmain
    show String.mk (interpChars ps (lbrace :: lbrace :: (k.data ++ [rbrace, rbrace]))) =
      match ps.lookup k with
      | some v => v
      | none => wrapKey k
    rw [hmain]
    cases hl : ps.lookup k with
    | some v =>
        cases v
        rfl
    | none => rfl

/-- Witness for C9's interpolation part at a concrete parameter map. -/
theorem t_resolution_and_interpolation_witness :
    interpolate (some [("name", "Ada")]) (wrapKey "name") = "Ada" := by
  have h := t_resolution_and_interpolation.2 [("name", "Ada")] "name"
    (by decide) (by decide)
  simpa using h

end I18nTheorems

section NotifTheorems

open Notif

/-- Decoding inverts encoding on every sextet. -/
theorem decode6_encode6 : ∀ i < 64, decode6 (encode6 i) = i := by decide

/-- The base64 alphabet never emits the padding character. -/
theorem encode6_ne_pad (n : Nat) : encode6 n ≠ '=' := by
  by_cases h : n < 64
  · exact (by decide : ∀ i < 64, encode6 i ≠ '=') n h
  · unfold encode6
    rw [List.getD_eq_default]
    · decide
    · have : b64Alphabet.length = 64 := by decide
      omega

/-- The URL-safe substitution map fixes every base64 output character. -/
theorem replaceUrlChar_encode6 (n : Nat) : replaceUrlChar (encode6 n) = encode6 n := by
  by_cases h : n < 64
  · exact (by decide : ∀ i < 64, replaceUrlChar (encode6 i) = encode6 i) n h
  · unfold encode6
    rw [List.getD_eq_default]
    · decide
    · have : b64Alphabet.length = 64 := by decide
      omega

/-- The encoded form always has length a multiple of four. -/
theorem btoaBytes_length_mod : ∀ bs : List Nat, (btoaBytes bs).length % 4 = 0
  | [] => by simp [btoaBytes]
  | [a] => by simp [btoaBytes]
  | [a, b] => by simp [btoaBytes]
  | a :: b :: c :: rest => by
      have ih := btoaBytes_length_mod rest
      simp [btoaBytes]
      omega

/-- The URL-safe substitution map is the identity on encoded output. -/
theorem btoaBytes_map_replace :
    ∀ bs : List Nat, (btoaBytes bs).map replaceUrlChar = btoaBytes bs
  | [] => by simp [btoaBytes]
  | [a] => by simp [btoaBytes, replaceUrlChar_encode6]; decide
  | [a, b] => by simp [btoaBytes, replaceUrlChar_encode6]; decide
  | a :: b :: c :: rest => by
      have ih := btoaBytes_map_replace rest
      simp [btoaBytes, replaceUrlChar_encode6, ih]

/-- Decoding inverts encoding on every byte sequence. -/
theorem atobChars_btoaBytes :
    ∀ bs : List Nat, (∀ x ∈ bs, x < 256) → atobChars (btoaBytes bs) = bs
  | [], _ => rfl
  | [a], h => by
      have ha : a < 256 := h a (by simp)
      simp only [btoaBytes, atobChars]
      rw [if_pos trivial]
      rw [decode6_encode6 (a / 4) (by omega), decode6_encode6 (a % 4 * 16) (by omega)]
      simp only [List.cons.injEq, and_true]
      omega
  | [a, b], h => by
      have ha : a < 256 := h a (by simp)
      have hb : b < 256 := h b (by simp)
      simp only [btoaBytes, atobChars]
      rw [if_neg (encode6_ne_pad _), if_pos trivial]
      rw [decode6_encode6 (a / 4) (by omega),
        decode6_encode6 (a % 4 * 16 + b / 16) (by omega),
        decode6_encode6 (b % 16 * 4) (by omega)]
      simp only [List.cons.injEq, and_true]
      constructor
      · omega
      · omega
  | a :: b :: c :: rest, h => by
      have ha : a < 256 := h a (by simp)
      have hb : b < 256 := h b (by simp)
      have hc : c < 256 := h c (by simp)
      have ih := atobChars_btoaBytes rest (fun x hx => h x (by simp [hx]))
      simp only [btoaBytes, atobChars]
      rw [if_neg (encode6_ne_pad _), if_neg (encode6_ne_pad _)]
      rw [decode6_encode6 (a / 4) (by omega),
        decode6_encode6 (a % 4 * 16 + b / 16) (by omega),
        decode6_encode6 (b % 16 * 4 + c / 64) (by omega),
        decode6_encode6 (c % 64) (by omega)]
      rw [ih]
      simp only [List.cons.injEq, and_true]
      refine ⟨by omega, by omega, by omega⟩

/-- C10: for every byte sequence, `urlBase64ToUint8Array` after
`arrayBufferToBase64` returns exactly the original bytes, and a null
buffer encodes to the empty string. -/
theorem urlBase64_roundtrip (bs : List Nat) (h : ∀ x ∈ bs, x < 256) :
    urlBase64ToUint8Array (arrayBufferToBase64 (some bs)) = bs ∧
    arrayBufferToBase64 none = "" := by
  constructor
  · show urlBase64ToUint8Array (String.mk (btoaBytes bs)) = bs
    unfold urlBase64ToUint8Array
    have hlen : (String.mk (btoaBytes bs)).length % 4 = 0 := btoaBytes_length_mod bs
    rw [hlen]
    show atobChars (((btoaBytes bs) ++ List.replicate ((4 - 0) % 4) '=').map replaceUrlChar) = bs
    simp only [Nat.sub_zero, Nat.mod_self, List.replicate_zero, List.append_nil]
    rw [btoaBytes_map_replace bs]
    exact atobChars_btoaBytes bs h
  · rfl

/-- Witness for C10 at a concrete byte sequence. -/
theorem urlBase64_roundtrip_witness :
    urlBase64ToUint8Array (arrayBufferToBase64 (some [0, 1, 77, 255, 254])) =
      [0, 1, 77, 255, 254] ∧
    arrayBufferToBase64 none = "" :=
  urlBase64_roundtrip [0, 1, 77, 255, 254] (by decide)

end NotifTheorems
